import Mathlib

/-!
Shallow embedding of `src/app.py` (a Slack task-reminder webhook service):
the task-record codec, the message-backed task-list store, the mention
parser/resolver, and the command router, together with theorems settling
the specification claims.

Python strings are modelled as Lean `String` (a list of code points, which
matches CPython `str` indexing/length semantics for the material here);
Python `None` is `Option.none`; Slack API calls that can raise
`SlackApiError` are modelled by an oracle environment `SlackEnv` giving
each call's outcome.
-/

namespace App

/-! ## Python string primitives -/

/-- The code points CPython treats as whitespace (`Py_UNICODE_ISSPACE`),
the class used both by `str.strip()` with no argument and by `re` `\s` on
`str` patterns: the ASCII controls 0x09-0x0D, the information separators
0x1C-0x1F, the space, NEXT LINE, NO-BREAK SPACE, OGHAM SPACE MARK, the
Zs general-category spaces 0x2000-0x200A, LINE and PARAGRAPH SEPARATOR,
NARROW NO-BREAK SPACE, MEDIUM MATHEMATICAL SPACE and IDEOGRAPHIC SPACE. -/
def pySpaceCodes : List Nat :=
  [0x09, 0x0A, 0x0B, 0x0C, 0x0D, 0x1C, 0x1D, 0x1E, 0x1F, 0x20, 0x85, 0xA0,
   0x1680, 0x2000, 0x2001, 0x2002, 0x2003, 0x2004, 0x2005, 0x2006, 0x2007,
   0x2008, 0x2009, 0x200A, 0x2028, 0x2029, 0x202F, 0x205F, 0x3000]

/-- Whitespace class used by `str.strip()` and `re` `\s` on `str`. -/
def isPySpace (c : Char) : Bool := pySpaceCodes.any (fun n => c.toNat == n)

/-- The line boundaries of `str.splitlines()`: LF, VT, FF, CR, FS, GS, RS,
NEL, LINE SEPARATOR and PARAGRAPH SEPARATOR (CR LF counts as one break). -/
def lineBreakCodes : List Nat :=
  [0x0A, 0x0B, 0x0C, 0x0D, 0x1C, 0x1D, 0x1E, 0x85, 0x2028, 0x2029]

/-- A character on which `str.splitlines()` splits. -/
def isLineBreak (c : Char) : Bool := lineBreakCodes.any (fun n => c.toNat == n)

/-- Start code points of the Unicode Nd (decimal digit) blocks, each a run
of ten code points carrying the values 0-9 in order (Unicode 14.0, the
character database of CPython 3.11): this is the class matched by `\d` on
`str` patterns and accepted by `int()`. -/
def ndBlockStarts : List Nat :=
  [0x30, 0x660, 0x6F0, 0x7C0, 0x966, 0x9E6, 0xA66, 0xAE6, 0xB66, 0xBE6,
   0xC66, 0xCE6, 0xD66, 0xDE6, 0xE50, 0xED0, 0xF20, 0x1040, 0x1090, 0x17E0,
   0x1810, 0x1946, 0x19D0, 0x1A80, 0x1A90, 0x1B50, 0x1BB0, 0x1C40, 0x1C50,
   0xA620, 0xA8D0, 0xA900, 0xA9D0, 0xA9F0, 0xAA50, 0xABF0, 0xFF10,
   0x104A0, 0x10D30, 0x11066, 0x110F0, 0x11136, 0x111D0, 0x112F0, 0x11450,
   0x114D0, 0x11650, 0x116C0, 0x11730, 0x118E0, 0x11950, 0x11C50, 0x11D50,
   0x11DA0, 0x16A60, 0x16AC0, 0x16B50, 0x1D7CE, 0x1D7D8, 0x1D7E2,
   0x1D7EC, 0x1D7F6, 0x1E140, 0x1E2F0, 0x1E950, 0x1FBF0]

/-- The class matched by `re` `\d` on `str` patterns: a Unicode decimal
digit (general category Nd). -/
def isPyDigit (c : Char) : Bool :=
  ndBlockStarts.any (fun s => decide (s ≤ c.toNat) && decide (c.toNat < s + 10))

/-- The decimal value `int()` assigns to one Nd digit: its offset inside
its block. -/
def pyDigitVal (c : Char) : Nat :=
  match ndBlockStarts.find? (fun s => decide (s ≤ c.toNat) && decide (c.toNat < s + 10)) with
  | some s => c.toNat - s
  | none => 0

/-- Embedding of `str.strip()` on the character list. -/
def stripChars (cs : List Char) : List Char :=
  ((cs.dropWhile isPySpace).reverse.dropWhile isPySpace).reverse

/-- Embedding of `str.strip()`. -/
def pyStrip (s : String) : String := ⟨stripChars s.data⟩

/-- Worker for `str.splitlines()`: splits on every line boundary of
`lineBreakCodes`, with no trailing empty line for a terminal break.
`afterCR` records that the previous character was `\r`, so the `\n` of a
`\r\n` pair is swallowed. -/
def splitlinesAux : List Char → List Char → Bool → List (List Char)
  | [], cur, _ => if cur.isEmpty then [] else [cur.reverse]
  | c :: rest, cur, afterCR =>
    if c = '\n' then
      if afterCR then splitlinesAux rest cur false
      else cur.reverse :: splitlinesAux rest [] false
    else if isLineBreak c then cur.reverse :: splitlinesAux rest [] (c = '\r')
    else splitlinesAux rest (c :: cur) false

/-- Embedding of `str.splitlines()` at the character level. -/
def splitlinesChars (cs : List Char) : List (List Char) := splitlinesAux cs [] false

/-- Worker for `str.split()` with no separator (whitespace runs, no empties). -/
def splitWsAux : List Char → List Char → List String
  | [], cur => if cur.isEmpty then [] else [⟨cur.reverse⟩]
  | c :: rest, cur =>
    if isPySpace c then
      if cur.isEmpty then splitWsAux rest [] else ⟨cur.reverse⟩ :: splitWsAux rest []
    else splitWsAux rest (c :: cur)

/-- Embedding of `str.split()` (split on whitespace, dropping empties). -/
def pySplitWs (s : String) : List String := splitWsAux s.data []

/-- Worker for `str.replace(pat, "")` with nonempty `pat`: remove all
non-overlapping occurrences, scanning left to right. The fuel starts at the
input length; every step consumes at least one character, so it never runs
out. -/
def removeOccsGo (pat : List Char) : Nat → List Char → List Char
  | _, [] => []
  | 0, cs => cs
  | fuel + 1, c :: rest =>
    if pat.isPrefixOf (c :: rest) then removeOccsGo pat fuel ((c :: rest).drop pat.length)
    else c :: removeOccsGo pat fuel rest

/-- Embedding of `str.replace(pat, "")` (an empty pattern with an empty
replacement leaves the string unchanged in Python). -/
def removeOccs (pat : List Char) (cs : List Char) : List Char :=
  if pat.isEmpty then cs else removeOccsGo pat cs.length cs

/-- Embedding of `full_text.replace(mention_token, "")`. -/
def pyRemove (s pat : String) : String := ⟨removeOccs pat.data s.data⟩

/-- Embedding of `str.startswith`. -/
def pyStartsWith (s pre : String) : Bool := pre.data.isPrefixOf s.data

/-- Embedding of `str.endswith`. -/
def pyEndsWith (s suf : String) : Bool := suf.data.isSuffixOf s.data

/-- Python truthiness of an optional string (`None` and `""` are falsy). -/
def pyTruthy : Option String → Bool
  | none => false
  | some s => !(s = "")

/-- Decimal digit character (`'0'`..`'9'`), as produced by `f"{n}"`. -/
def digitChar (d : Nat) : Char := Char.ofNat (48 + d)

/-- Worker producing the decimal digits of `n` (most significant first) in
front of `acc`; the fuel bounds the digit count and never runs out when it
starts at `n`. -/
def natReprGo : Nat → Nat → List Char → List Char
  | 0, _, acc => acc
  | fuel + 1, n, acc =>
    if n = 0 then acc else natReprGo fuel (n / 10) (digitChar (n % 10) :: acc)

/-- Embedding of Python `str(n)` / `f"{n}"` for a natural number. -/
def natRepr (n : Nat) : String := if n = 0 then "0" else ⟨natReprGo n n []⟩

/-- Embedding of `int(digit_string)` for a run of Nd digits (as produced
by the `\d+` capture): each digit contributes its Unicode decimal value. -/
def digitsToNat (ds : List Char) : Nat :=
  ds.foldl (fun a c => a * 10 + pyDigitVal c) 0

/-! ## Task Record Codec

Decoder side: `get_latest_tasklist` (src/app.py lines 179-191) recognizes a
message as a task record by prefix and extracts the numbered lines.
Encoder side: `post_tasklist` (lines 227-234) builds the record body. -/

/-- Recognizer from line 183: the body starts with one of the three
record markers. -/
def isTaskRecord (text : String) : Bool :=
  pyStartsWith text "Remaining tasks:" || pyStartsWith text "✅ Removed:" ||
    pyStartsWith text "🎉 All tasks completed!"

/-- Embedding of `re.match(r"^\d+\.", line)`: a nonempty leading run of
`\d` digits followed by a literal dot. -/
def matchesNumDot (cs : List Char) : Bool :=
  !(cs.takeWhile isPyDigit).isEmpty &&
    (match cs.dropWhile isPyDigit with
     | '.' :: _ => true
     | _ => false)

/-- Embedding of `re.sub(r"^\d+\.\s*", "", line)`: strip the leading digit
run, the dot, and any following whitespace, when the pattern matches. -/
def stripNumDot (cs : List Char) : List Char :=
  if matchesNumDot cs then ((cs.dropWhile isPyDigit).drop 1).dropWhile isPySpace
  else cs

/-- Lines 185-186: keep the lines whose stripped form matches `^\d+\.` and
strip the numbering prefix from each. -/
def decodeLines (text : String) : List String :=
  ((((splitlinesChars text.data).map stripChars).filter matchesNumDot).map stripNumDot).map
    (fun cs => (⟨cs⟩ : String))

/-- The decoder embedded in `get_latest_tasklist`: a recognized record body
yields its numbered lines; an unrecognized body contributes no tasks
(the scan skips it, equivalent to the empty list). -/
def decode (text : String) : List String :=
  if isTaskRecord text then decodeLines text else []

/-- Embedding of `"\n".join(lines)`. -/
def joinNL : List String → String
  | [] => ""
  | [l] => l
  | l :: ls => l ++ "\n" ++ joinNL ls

/-- Lines numbered from index `k` (source: `f"{i+1}. {task}"` over
`enumerate(tasks)`, generalized in the start index for induction). -/
def numberFrom : Nat → List String → List String
  | _, [] => []
  | k, t :: ts => (natRepr (k + 1) ++ ". " ++ t) :: numberFrom (k + 1) ts

/-- Body construction of `post_tasklist` (lines 228-234): numbered list or
celebratory sentinel, optionally prefixed by the removal marker (the prefix
is added only when `removed_task` is truthy). -/
def encodeBody (tasks : List String) (removed_task : Option String) : String :=
  let body :=
    if tasks.isEmpty then "🎉 All tasks completed!"
    else "Remaining tasks:" ++ "\n" ++ joinNL (numberFrom 0 tasks)
  match removed_task with
  | some r => if r = "" then body else "✅ Removed: " ++ r ++ "\n\n" ++ body
  | none => body

/-! ## Slack API oracle

Every `client.*` call in the source can either return a payload or raise
`SlackApiError`. `SlackEnv` fixes each call's outcome for one handled
event, so the handler becomes a pure function of the event and the oracle. -/

/-- The error class raised by the Slack SDK client. -/
inductive SlackApiError where
  | apiError
deriving DecidableEq, Repr

/-- A message in the direct-conversation history (`msg["text"]`,
`msg["ts"]`). -/
structure Msg where
  ts : String
  text : String
deriving DecidableEq, Repr

/-- A user profile as returned by `users_info` (absent fields are `""`,
which Python's `or` chain treats like `None`). -/
structure Profile where
  display_name : String := ""
  real_name : String := ""
deriving DecidableEq, Repr

/-- Outcomes of the Slack client calls made while handling one event.
`none` for an `Option`-typed field means the call raises `SlackApiError`. -/
structure SlackEnv where
  /-- `conversations_open`: the direct-channel id, or a raise. -/
  openResult : Option String := none
  /-- `conversations_history`: the recent-message window, or a raise. -/
  historyResult : Option (List Msg) := none
  /-- `chat_postMessage` raises. -/
  postFails : Bool := false
  /-- `chat_delete` raises. -/
  deleteFails : Bool := false
  /-- `chat_getPermalink`: the permalink value, or a raise. -/
  permalinkResult : Option String := none
  /-- `users_info`: the sender's profile, or a raise. -/
  userInfo : Option Profile := none
  /-- `usergroups_users_list`: the member ids, or a raise. -/
  usergroupUsers : Option (List String) := none
deriving DecidableEq, Repr

/-- An observable Slack side effect, with whether the call succeeded. -/
inductive Action where
  | post (channel : String) (text : String) (ok : Bool)
  | delete (channel : String) (ts : String) (ok : Bool)
deriving DecidableEq, Repr

/-! ## Lookup helpers (src/app.py lines 194-224): every failure is caught
and replaced by a documented fallback value. -/

/-- Embedding of `get_usergroup_members`: on `SlackApiError`, an empty
member list. -/
def get_usergroup_members (env : SlackEnv) (_group_id : String) : List String :=
  match env.usergroupUsers with
  | some users => users
  | none => []

/-- Embedding of `get_username`: `display_name or real_name or f"<@{uid}>"`,
with the raw-mention fallback when `users_info` raises. -/
def get_username (env : SlackEnv) (user_id : String) : String :=
  match env.userInfo with
  | some p =>
    if p.display_name ≠ "" then p.display_name
    else if p.real_name ≠ "" then p.real_name
    else "<@" ++ user_id ++ ">"
  | none => "<@" ++ user_id ++ ">"

/-- Embedding of `get_permalink`: the resolved permalink (the call is made
with `thread_ts or ts`), or the `"#"` placeholder when the call raises. -/
def get_permalink (env : SlackEnv) : String :=
  match env.permalinkResult with
  | some p => p
  | none => "#"

/-! ## Task List Store -/

/-- The scan loop of `get_latest_tasklist` (lines 179-187): the first
message whose nonempty text is recognized as a task record, decoded. -/
def findRecord : List Msg → Option (String × List String)
  | [] => none
  | m :: ms =>
    if m.text = "" then findRecord ms
    else if isTaskRecord m.text then some (m.ts, decodeLines m.text)
    else findRecord ms

/-- Embedding of `get_latest_tasklist` (lines 166-191): returns
`(im_channel, old_message_ts, tasks)`; both Slack calls catch their own
`SlackApiError` and degrade as in the source. -/
def get_latest_tasklist (env : SlackEnv) :
    Option String × Option String × List String :=
  match env.openResult with
  | none => (none, none, [])
  | some im_channel =>
    match env.historyResult with
    | none => (some im_channel, none, [])
    | some messages =>
      match findRecord messages with
      | some (ts, tasks) => (some im_channel, some ts, tasks)
      | none => (some im_channel, none, [])

/-- Embedding of `post_tasklist` (lines 227-246): post the encoded body;
only when the post succeeds and `old_ts` is truthy, attempt the delete;
every `SlackApiError` is caught inside, so only the action trace escapes. -/
def post_tasklist (env : SlackEnv) (im_channel : String) (tasks : List String)
    (old_ts : Option String) (removed_task : Option String) : List Action :=
  let body := encodeBody tasks removed_task
  if env.postFails then [Action.post im_channel body false]
  else
    Action.post im_channel body true ::
      (match old_ts with
       | some ts => if ts = "" then [] else [Action.delete im_channel ts (!env.deleteFails)]
       | none => [])

/-! ## Assignment and removal (lines 128-163) -/

/-- Truncation in `add_task` line 132:
`visible_text[:200] + ("..." if len(visible_text) > 200 else "")`. -/
def truncateVisible (s : String) : String :=
  (⟨s.data.take 200⟩ : String) ++ (if 200 < s.data.length then "..." else "")

/-- The task display string built in `add_task` lines 131-135. -/
def buildTask (env : SlackEnv) (full_text mention_token sender_id : String) : String :=
  let visible_text := pyStrip (pyRemove full_text mention_token)
  let truncated := truncateVisible visible_text
  let link := get_permalink env
  let sender_name := get_username env sender_id
  truncated ++ " (from " ++ sender_name ++ ") - " ++ link

/-- Embedding of `add_task` (lines 128-143): abandon silently when no
direct conversation opens, else append and commit. -/
def add_task (env : SlackEnv) (full_text mention_token sender_id : String) :
    List Action :=
  let new_task := buildTask env full_text mention_token sender_id
  match get_latest_tasklist env with
  | (none, _, _) => []
  | (some im_channel, old_ts, tasks) =>
    post_tasklist env im_channel (tasks ++ [new_task]) old_ts none

/-- Body of `remove_task` after `get_latest_tasklist` returned a channel
(lines 153-163). The two notice posts are made with no surrounding
`try/except`, so their `SlackApiError` propagates to the caller. -/
def remove_task_core (env : SlackEnv) (im_channel : String) (old_ts : Option String)
    (tasks : List String) (task_num : Nat) : Except SlackApiError (List Action) :=
  if tasks.isEmpty then
    if env.postFails then Except.error SlackApiError.apiError
    else Except.ok [Action.post im_channel "No tasks to remove." true]
  else if task_num < 1 ∨ tasks.length < task_num then
    if env.postFails then Except.error SlackApiError.apiError
    else
      Except.ok [Action.post im_channel
        ("Task " ++ natRepr task_num ++ " does not exist.") true]
  else
    let removed := tasks.getD (task_num - 1) ""
    Except.ok (post_tasklist env im_channel (tasks.eraseIdx (task_num - 1)) old_ts
      (some removed))

/-- Embedding of `remove_task` (lines 146-163). -/
def remove_task (env : SlackEnv) (task_num : Nat) : Except SlackApiError (List Action) :=
  match get_latest_tasklist env with
  | (none, _, _) => Except.ok []
  | (some im_channel, old_ts, tasks) =>
    remove_task_core env im_channel old_ts tasks task_num

/-! ## Mention Parser and Recipient Resolver (lines 93-125) -/

/-- The static allow-list (line 16). -/
def ALLOWED_USERS : List String := ["U03AA1ZBH5F"]

/-- Embedding of `word.strip("<@>")`: repeatedly drop any of the three
characters from both ends. -/
def stripAngleAt (word : String) : String :=
  let inSet : Char → Bool := fun c => c = '<' || c = '@' || c = '>'
  ⟨((word.data.dropWhile inSet).reverse.dropWhile inSet).reverse⟩

/-- Candidate extraction for an individual mention (lines 100-104): the
token must look like `<@...>`; the identifier drops a `|displayname`
suffix. -/
def extractUserMention (word : String) : Option String :=
  if pyStartsWith word "<@" && pyEndsWith word ">" then
    let mention := stripAngleAt word
    some ⟨mention.data.takeWhile (fun c => c ≠ '|')⟩
  else none

/-- Candidate extraction for a usergroup mention (lines 110-116): token of
shape `<!subteam^...>`, identifier between `^` and an optional `|`. -/
def extractGroupId (word : String) : Option String :=
  if pyStartsWith word "<!subteam^" && pyEndsWith word ">" then
    let inside := word.data.drop 1 |>.dropLast
    if inside.contains '^' then
      some ⟨((inside.dropWhile (fun c => c ≠ '^')).drop 1).takeWhile (fun c => c ≠ '|')⟩
    else none
  else none

/-- The gate on an individual-mention candidate (line 106):
`mention.startswith("U") and mention in ALLOWED_USERS`. -/
def individualTriggers (mention : String) : Bool :=
  pyStartsWith mention "U" && mention ∈ ALLOWED_USERS

/-- The gate on a group-expanded member (line 121): `uid in ALLOWED_USERS`. -/
def groupMemberTriggers (uid : String) : Bool :=
  uid ∈ ALLOWED_USERS

/-- Handling of one whitespace token of the message text (lines 98-125). -/
def processWord (env : SlackEnv) (text sender_id : String) (word : String) :
    List Action :=
  match extractUserMention word with
  | some mention =>
    if individualTriggers mention then add_task env text word sender_id else []
  | none =>
    match extractGroupId word with
    | some group_id =>
      ((get_usergroup_members env group_id).map fun uid =>
        if groupMemberTriggers uid then add_task env text word sender_id else []).flatten
    | none => []

/-- Embedding of `handle_mentions` (lines 93-125). -/
def handle_mentions (env : SlackEnv) (text sender_id : String) : List Action :=
  ((pySplitWs text).map (processWord env text sender_id)).flatten

/-! ## Command Router (lines 22-67) -/

/-- A block element (`e["type"]`, `e["text"]`). -/
structure BlockElement where
  type : Option String := none
  text : Option String := none
deriving DecidableEq, Repr

/-- A section field carrying an optional `"text"` entry. -/
structure BlockField where
  text : Option String := none
deriving DecidableEq, Repr

/-- A rich-text block. `text = some inner` models `b["text"]` being present
and a dict, with `inner` its `"text"` entry. -/
structure Block where
  type : Option String := none
  text : Option (Option String) := none
  fields : Option (List BlockField) := none
  elements : Option (List BlockElement) := none
deriving DecidableEq, Repr

/-- The inbound message event payload (spec section 6). `bot_id` marks a
bot-authored message; the handler never reads it. -/
structure Event where
  type : Option String := none
  subtype : Option String := none
  text : Option String := none
  blocks : Option (List Block) := none
  channel : Option String := none
  ts : Option String := none
  thread_ts : Option String := none
  user : Option String := none
  channel_type : Option String := none
  bot_id : Option String := none
deriving DecidableEq, Repr

/-- The webhook envelope: an optional verification challenge and an
optional event (`data.get("event", {})`). -/
structure Payload where
  challenge : Option String := none
  event : Option Event := none
deriving DecidableEq, Repr

/-- Embedding of `extract_text_from_blocks` (lines 70-90). -/
def extract_text_from_blocks (blocks : List Block) : String :=
  let parts := (blocks.map fun b =>
    (match b.text with
     | some inner => [inner.getD ""]
     | none => []) ++
    (if b.type = some "section" then
       match b.fields with
       | some fs => fs.filterMap (fun f => f.text)
       | none => []
     else []) ++
    (match b.elements with
     | some es => es.filterMap (fun e => if e.type = some "text" then e.text else none)
     | none => [])).flatten
  joinSpace (parts.filter (fun p => p ≠ ""))
where
  /-- Embedding of `" ".join(...)`. -/
  joinSpace : List String → String
  | [] => ""
  | [p] => p
  | p :: ps => p ++ " " ++ joinSpace ps

/-- Line 46: `event.get("text", "") or extract_text_from_blocks(event)`. -/
def eventText (event : Event) : String :=
  let t := event.text.getD ""
  if t ≠ "" then t else extract_text_from_blocks (event.blocks.getD [])

/-- Per-character match for the literal `"remove task"` under
`re.IGNORECASE` with Unicode semantics: an input character matches when its
simple lowercase mapping equals the (lowercase) pattern character. For
these ten pattern characters that means the ASCII upper/lower pair, plus
KELVIN SIGN for `k` (its simple lowercase is `k`) and LATIN SMALL LETTER
LONG S for `s` (through sre's extra case equivalences); the space matches
only itself. No other code point lowercases onto these ASCII letters. -/
def ciMatchesLiteral (p c : Char) : Bool :=
  if p = 's' then c = 's' || c = 'S' || c = 'ſ'
  else if p = 'k' then c = 'k' || c = 'K' || c = 'K'
  else if p = ' ' then c = ' '
  else c = p || c.toNat = p.toNat - 32

/-- Embedding of `re.match(r"remove task\s+(\d+)", text.strip(), re.I)`
(line 57): an anchored, case-insensitive prefix match returning
`int(group(1))`; text after the digits is not constrained. -/
def parseRemoveCommand (text : String) : Option Nat :=
  let cs := stripChars text.data
  match matchLiteralCI "remove task".data cs with
  | none => none
  | some rest =>
    let ws := rest.takeWhile isPySpace
    if ws.isEmpty then none
    else
      let ds := (rest.dropWhile isPySpace).takeWhile isPyDigit
      if ds.isEmpty then none else some (digitsToNat ds)
where
  /-- Case-insensitive literal match (`re.I`), returning the remainder. -/
  matchLiteralCI : List Char → List Char → Option (List Char)
  | [], cs => some cs
  | _ :: _, [] => none
  | p :: ps, c :: cs => if ciMatchesLiteral p c then matchLiteralCI ps cs else none

/-- What the router decides to do with a payload. -/
inductive RouterDecision where
  | challenge (c : String)
  | ignore
  | removal (sender : Option String) (n : Nat)
  | mentions (text : String) (sender : Option String)
deriving DecidableEq, Repr

/-- The classification performed by `slack_events` (lines 31-65), before
any Slack call is made. -/
def route (data : Payload) : RouterDecision :=
  match data.challenge with
  | some c => RouterDecision.challenge c
  | none =>
    let event := data.event.getD {}
    if event.type ≠ some "message" then RouterDecision.ignore
    else if pyTruthy event.subtype then RouterDecision.ignore
    else
      let text := eventText event
      if event.channel_type = some "im" then
        match parseRemoveCommand text with
        | some n => RouterDecision.removal event.user n
        | none => RouterDecision.mentions text event.user
      else RouterDecision.mentions text event.user

/-- The handler's HTTP response value. -/
inductive Response where
  | challengeEcho (c : String)
  | ackOk
deriving DecidableEq, Repr

/-- Embedding of the whole `slack_events` handler (lines 22-67): the
response together with the Slack actions performed, or the uncaught
exception escaping the endpoint. -/
def slack_events (env : SlackEnv) (data : Payload) :
    Except SlackApiError (Response × List Action) :=
  match route data with
  | RouterDecision.challenge c => Except.ok (Response.challengeEcho c, [])
  | RouterDecision.ignore => Except.ok (Response.ackOk, [])
  | RouterDecision.removal _sender n =>
    match remove_task env n with
    | Except.error e => Except.error e
    | Except.ok acts => Except.ok (Response.ackOk, acts)
  | RouterDecision.mentions text sender =>
    Except.ok (Response.ackOk, handle_mentions env text (sender.getD ""))

/-- Modelled from the spec's words for claim C6 (the code is the authority;
this is the comparison point): the trimmed text must match the grammar
`remove task <positive integer>` in full, case-insensitively. -/
def specRemoveGrammar (text : String) : Option Nat :=
  let cs := stripChars text.data
  match parseRemoveCommand.matchLiteralCI "remove task".data cs with
  | none => none
  | some rest =>
    let ws := rest.takeWhile isPySpace
    if ws.isEmpty then none
    else
      let after := rest.dropWhile isPySpace
      let ds := after.takeWhile isPyDigit
      if ds.isEmpty ∨ after.drop ds.length ≠ [] ∨ digitsToNat ds < 1 then none
      else some (digitsToNat ds)

/-! ## General helper lemmas -/

theorem strExt {a b : String} (h : a.data = b.data) : a = b := by
  cases a; cases b; exact congrArg String.mk h

theorem data_append (a b : String) : (a ++ b).data = a.data ++ b.data :=
  String.data_append a b

theorem isPrefixOf_append_self (p r : List Char) : p.isPrefixOf (p ++ r) = true := by
  induction p with
  | nil => simp [List.isPrefixOf]
  | cons c cs ih => simp [List.isPrefixOf, ih]

theorem takeWhile_append_all {p : Char → Bool} {xs : List Char} (ys : List Char)
    (h : ∀ x ∈ xs, p x = true) : (xs ++ ys).takeWhile p = xs ++ ys.takeWhile p := by
  induction xs with
  | nil => simp
  | cons c cs ih =>
    have hc : p c = true := h c (by simp)
    simp only [List.cons_append, List.takeWhile_cons, hc, if_true]
    rw [ih (fun x hx => h x (by simp [hx]))]

theorem dropWhile_append_all {p : Char → Bool} {xs : List Char} (ys : List Char)
    (h : ∀ x ∈ xs, p x = true) : (xs ++ ys).dropWhile p = ys.dropWhile p := by
  induction xs with
  | nil => simp
  | cons c cs ih =>
    have hc : p c = true := h c (by simp)
    simp only [List.cons_append, List.dropWhile_cons, hc, if_true]
    exact ih (fun x hx => h x (by simp [hx]))

theorem dropWhile_cons_neg {p : Char → Bool} {c : Char} (h : p c = false)
    (l : List Char) : (c :: l).dropWhile p = c :: l := by
  simp [List.dropWhile_cons, h]

theorem dropWhile_append_singleton {p : Char → Bool} (xs : List Char) {c : Char}
    (h : p c = false) : ∃ ys, (xs ++ [c]).dropWhile p = ys ++ [c] := by
  induction xs with
  | nil => exact ⟨[], by simp [List.dropWhile_cons, h]⟩
  | cons x xs ih =>
    by_cases hx : p x = true
    · simpa [List.dropWhile_cons, hx] using ih
    · exact ⟨x :: xs, by simp [List.dropWhile_cons, hx]⟩

theorem dropWhile_fix_head {p : Char → Bool} {c : Char} {l : List Char}
    (h : (c :: l).dropWhile p = c :: l) : p c = false := by
  by_cases hc : p c = true
  · exfalso
    have hlen : (l.dropWhile p).length ≤ l.length := (List.dropWhile_sublist p).length_le
    rw [List.dropWhile_cons, if_pos hc] at h
    have := congrArg List.length h
    simp at this
    omega
  · simpa using hc

/-! ## Digit lemmas for the decimal rendering -/

theorem digitChar_isDigit {d : Nat} (h : d < 10) : isPyDigit (digitChar d) = true := by
  have hall : ∀ d, d < 10 → isPyDigit (digitChar d) = true := by decide
  exact hall d h

theorem space_not_digit {c : Char} (h : isPySpace c = true) : isPyDigit c = false := by
  rw [isPySpace, List.any_eq_true] at h
  obtain ⟨n, hn, hc⟩ := h
  have hcn : c.toNat = n := by simpa using hc
  have hall : ∀ m ∈ pySpaceCodes,
      (ndBlockStarts.any (fun s => decide (s ≤ m) && decide (m < s + 10))) = false := by decide
  rw [isPyDigit]
  simp only [hcn]
  exact hall n hn

theorem break_not_digit {c : Char} (h : isLineBreak c = true) : isPyDigit c = false := by
  rw [isLineBreak, List.any_eq_true] at h
  obtain ⟨n, hn, hc⟩ := h
  have hcn : c.toNat = n := by simpa using hc
  have hall : ∀ m ∈ lineBreakCodes,
      (ndBlockStarts.any (fun s => decide (s ≤ m) && decide (m < s + 10))) = false := by decide
  rw [isPyDigit]
  simp only [hcn]
  exact hall n hn

theorem digit_not_space {c : Char} (h : isPyDigit c = true) : isPySpace c = false := by
  by_cases hs : isPySpace c = true
  · rw [space_not_digit hs] at h; exact absurd h (by simp)
  · simpa using hs

theorem digit_not_break {c : Char} (h : isPyDigit c = true) : isLineBreak c = false := by
  by_cases hb : isLineBreak c = true
  · rw [break_not_digit hb] at h; exact absurd h (by simp)
  · simpa using hb

theorem natReprGo_digits :
    ∀ fuel n acc, (∀ c ∈ acc, isPyDigit c = true) →
      ∀ c ∈ natReprGo fuel n acc, isPyDigit c = true := by
  intro fuel
  induction fuel with
  | zero => intro n acc hacc; simpa [natReprGo] using hacc
  | succ f ih =>
    intro n acc hacc c hc
    by_cases hn : n = 0
    · rw [natReprGo, if_pos hn] at hc; exact hacc c hc
    · rw [natReprGo, if_neg hn] at hc
      refine ih (n / 10) _ ?_ c hc
      intro d hd
      rcases List.mem_cons.mp hd with rfl | hd
      · exact digitChar_isDigit (Nat.mod_lt n (by omega))
      · exact hacc d hd

theorem natReprGo_len :
    ∀ fuel n acc, acc.length ≤ (natReprGo fuel n acc).length := by
  intro fuel
  induction fuel with
  | zero => intro n acc; simp [natReprGo]
  | succ f ih =>
    intro n acc
    by_cases hn : n = 0
    · simp [natReprGo, hn]
    · rw [natReprGo, if_neg hn]
      calc acc.length ≤ (digitChar (n % 10) :: acc).length := by simp
        _ ≤ _ := ih (n / 10) _

theorem natRepr_digits (n : Nat) : ∀ c ∈ (natRepr n).data, isPyDigit c = true := by
  by_cases hn : n = 0
  · subst hn; intro c hc
    rw [natRepr, if_pos rfl] at hc
    have hd : (("0" : String)).data = ['0'] := rfl
    rw [hd, List.mem_singleton] at hc
    subst hc; decide
  · rw [natRepr, if_neg hn]
    exact natReprGo_digits n n [] (by simp)

theorem natRepr_ne_nil (n : Nat) : (natRepr n).data ≠ [] := by
  by_cases hn : n = 0
  · subst hn; intro hcontra
    rw [natRepr, if_pos rfl] at hcontra
    exact absurd hcontra (by decide)
  · obtain ⟨f, rfl⟩ : ∃ f, n = f + 1 := ⟨n - 1, by omega⟩
    rw [natRepr, if_neg hn]
    show natReprGo (f + 1) (f + 1) [] ≠ []
    rw [natReprGo, if_neg hn]
    intro hcontra
    have hlen := natReprGo_len f ((f + 1) / 10) [digitChar ((f + 1) % 10)]
    rw [hcontra] at hlen
    simp at hlen

/-! ## Codec round-trip infrastructure -/

theorem mk_data (s : String) : (⟨s.data⟩ : String) = s := rfl

/-- No line-boundary character of `str.splitlines()` occurs. -/
def noNLChars (cs : List Char) : Prop := ∀ c ∈ cs, isLineBreak c = false

instance noNLChars.dec (cs : List Char) : Decidable (noNLChars cs) :=
  inferInstanceAs (Decidable (∀ c ∈ cs, isLineBreak c = false))

/-- A task string that survives the codec's line handling unchanged: no
line break and no leading or trailing whitespace. -/
def cleanTask (t : String) : Prop :=
  noNLChars t.data ∧ t.data.dropWhile isPySpace = t.data ∧
    t.data.reverse.dropWhile isPySpace = t.data.reverse

instance cleanTask.dec (t : String) : Decidable (cleanTask t) :=
  inferInstanceAs (Decidable (noNLChars t.data ∧ t.data.dropWhile isPySpace = t.data ∧
    t.data.reverse.dropWhile isPySpace = t.data.reverse))

theorem splitlinesAux_cons_other {c : Char} (h : isLineBreak c = false)
    (rest cur : List Char) (b : Bool) :
    splitlinesAux (c :: rest) cur b = splitlinesAux rest (c :: cur) false := by
  have h1 : ¬ c = '\n' := by
    intro hc; subst hc; exact absurd h (by decide)
  simp [splitlinesAux, h1, h]

theorem splitlinesAux_cons_nl (rest cur : List Char) :
    splitlinesAux ('\n' :: rest) cur false = cur.reverse :: splitlinesAux rest [] false := by
  simp [splitlinesAux]

theorem splitlinesAux_noNL (cs : List Char) (h : noNLChars cs) :
    ∀ cur, splitlinesAux cs cur false =
      if cur = [] ∧ cs = [] then [] else [cur.reverse ++ cs] := by
  induction cs with
  | nil =>
    intro cur
    by_cases hc : cur = [] <;> simp [splitlinesAux, hc]
  | cons c cs ih =>
    intro cur
    rw [splitlinesAux_cons_other (h c (by simp)),
      ih (fun x hx => h x (by simp [hx])) (c :: cur)]
    simp

theorem splitlinesAux_append_nl (cs : List Char) (h : noNLChars cs) :
    ∀ rest cur, splitlinesAux (cs ++ '\n' :: rest) cur false =
      (cur.reverse ++ cs) :: splitlinesAux rest [] false := by
  induction cs with
  | nil => intro rest cur; simpa using splitlinesAux_cons_nl rest cur
  | cons c cs ih =>
    intro rest cur
    rw [List.cons_append, splitlinesAux_cons_other (h c (by simp)),
      ih (fun x hx => h x (by simp [hx]))]
    simp

theorem joinNL_cons (l x : String) (ls : List String) :
    joinNL (l :: x :: ls) = l ++ "\n" ++ joinNL (x :: ls) := rfl

theorem splitlines_joinNL :
    ∀ ls : List String, ls ≠ [] → (∀ l ∈ ls, noNLChars l.data ∧ l.data ≠ []) →
      splitlinesAux (joinNL ls).data [] false = ls.map String.data := by
  intro ls
  induction ls with
  | nil => intro h; exact absurd rfl h
  | cons l ls ih =>
    intro _ hl
    obtain ⟨hn, hne⟩ := hl l (by simp)
    cases ls with
    | nil =>
      show splitlinesAux (joinNL [l]).data [] false = [l.data]
      have hjl : joinNL [l] = l := rfl
      rw [hjl, splitlinesAux_noNL l.data hn []]
      simp [hne]
    | cons x xs =>
      rw [joinNL_cons, data_append, data_append]
      have hnl : ("\n" : String).data = ['\n'] := rfl
      rw [hnl, List.append_assoc]
      have hstep := splitlinesAux_append_nl l.data hn (joinNL (x :: xs)).data []
      simp only [List.singleton_append] at hstep ⊢
      rw [hstep, ih (by simp) (fun m hm => hl m (by simp [hm]))]
      simp

theorem stripChars_head {c : Char} (h : isPySpace c = false) (rest : List Char) :
    ∃ mid, stripChars (c :: rest) = c :: mid := by
  unfold stripChars
  rw [dropWhile_cons_neg h, List.reverse_cons]
  obtain ⟨ys, hys⟩ := dropWhile_append_singleton (p := isPySpace) rest.reverse h
  rw [hys]
  exact ⟨ys.reverse, by simp⟩

theorem matchesNumDot_cons_nondigit {c : Char} (h : isPyDigit c = false)
    (l : List Char) : matchesNumDot (c :: l) = false := by
  simp [matchesNumDot, List.takeWhile_cons, h]

theorem stripChars_numberLine (d ts : List Char) (hd : ∀ c ∈ d, isPyDigit c = true)
    (hne : d ≠ []) (hc2 : ts.dropWhile isPySpace = ts)
    (hc3 : ts.reverse.dropWhile isPySpace = ts.reverse) :
    stripChars (d ++ '.' :: ' ' :: ts) =
      d ++ '.' :: (if ts = [] then [] else ' ' :: ts) := by
  obtain ⟨d0, d', rfl⟩ : ∃ d0 d', d = d0 :: d' := by
    cases d with
    | nil => exact absurd rfl hne
    | cons a l => exact ⟨a, l, rfl⟩
  have hd0 : isPySpace d0 = false := digit_not_space (hd d0 (by simp))
  unfold stripChars
  rw [List.cons_append, dropWhile_cons_neg hd0]
  cases ts with
  | nil =>
    have key : List.dropWhile isPySpace (d0 :: (d' ++ '.' :: ' ' :: ([] : List Char))).reverse =
        '.' :: (d0 :: d').reverse := by
      have h1 : (d0 :: (d' ++ '.' :: ' ' :: ([] : List Char))).reverse =
          ' ' :: '.' :: (d0 :: d').reverse := by simp
      rw [h1, List.dropWhile_cons, if_pos (by decide), dropWhile_cons_neg (by decide)]
    rw [key]
    simp
  | cons t0 ts' =>
    obtain ⟨y, ys, hy⟩ : ∃ y ys, (t0 :: ts').reverse = y :: ys := by
      cases hr : (t0 :: ts').reverse with
      | nil => exact absurd hr (by simp)
      | cons a l => exact ⟨a, l, rfl⟩
    have hyns : isPySpace y = false := by
      apply dropWhile_fix_head (l := ys)
      rw [← hy]; exact hc3
    have h1 : (d0 :: (d' ++ '.' :: ' ' :: (t0 :: ts'))).reverse =
        (t0 :: ts').reverse ++ (' ' :: '.' :: (d0 :: d').reverse) := by simp
    have key : List.dropWhile isPySpace
        ((t0 :: ts').reverse ++ (' ' :: '.' :: (d0 :: d').reverse)) =
        (t0 :: ts').reverse ++ (' ' :: '.' :: (d0 :: d').reverse) := by
      rw [hy, List.cons_append, dropWhile_cons_neg hyns]
    rw [h1, key]
    simp

theorem numberLine_data (k : Nat) (t : String) :
    (natRepr (k + 1) ++ ". " ++ t).data =
      (natRepr (k + 1)).data ++ '.' :: ' ' :: t.data := by
  rw [data_append, data_append]
  have hds : (". " : String).data = ['.', ' '] := rfl
  rw [hds]
  simp

theorem numberLine_decodes (k : Nat) (t : String) (h : cleanTask t) :
    matchesNumDot (stripChars ((natRepr (k + 1)).data ++ '.' :: ' ' :: t.data)) = true ∧
    stripNumDot (stripChars ((natRepr (k + 1)).data ++ '.' :: ' ' :: t.data)) = t.data := by
  obtain ⟨_, hc2, hc3⟩ := h
  rw [stripChars_numberLine _ _ (natRepr_digits (k + 1)) (natRepr_ne_nil (k + 1)) hc2 hc3]
  have htake : ((natRepr (k + 1)).data ++
      '.' :: (if t.data = [] then [] else ' ' :: t.data)).takeWhile isPyDigit =
      (natRepr (k + 1)).data := by
    rw [takeWhile_append_all _ (natRepr_digits (k + 1))]
    simp [List.takeWhile_cons, show isPyDigit '.' = false from by decide]
  have hdrop : ((natRepr (k + 1)).data ++
      '.' :: (if t.data = [] then [] else ' ' :: t.data)).dropWhile isPyDigit =
      '.' :: (if t.data = [] then [] else ' ' :: t.data) := by
    rw [dropWhile_append_all _ (natRepr_digits (k + 1))]
    simp [List.dropWhile_cons, show isPyDigit '.' = false from by decide]
  constructor
  · rw [matchesNumDot, htake, hdrop]
    simp [natRepr_ne_nil (k + 1)]
  · rw [stripNumDot]
    rw [if_pos (by rw [matchesNumDot, htake, hdrop]; simp [natRepr_ne_nil (k + 1)])]
    rw [hdrop]
    by_cases ht : t.data = []
    · simp [ht]
    · rw [if_neg ht]
      show ((' ' :: t.data).drop 0).dropWhile isPySpace = t.data
      rw [List.drop_zero, List.dropWhile_cons, if_pos (by decide)]
      exact hc2

/-- The per-line processing applied by the decoder after splitting. -/
def decodePipe (lines : List (List Char)) : List String :=
  (((lines.map stripChars).filter matchesNumDot).map stripNumDot).map
    (fun cs => (⟨cs⟩ : String))

theorem decodeLines_eq_pipe (text : String) :
    decodeLines text = decodePipe (splitlinesChars text.data) := rfl

theorem decodePipe_append (a b : List (List Char)) :
    decodePipe (a ++ b) = decodePipe a ++ decodePipe b := by
  simp [decodePipe]

theorem decodePipe_drop (l : List Char) (h : matchesNumDot (stripChars l) = false) :
    decodePipe [l] = [] := by
  simp [decodePipe, h]

theorem decodePipe_numberFrom :
    ∀ (tasks : List String) (k : Nat), (∀ t ∈ tasks, cleanTask t) →
      decodePipe ((numberFrom k tasks).map String.data) = tasks := by
  intro tasks
  induction tasks with
  | nil => intro k _; rfl
  | cons t ts ih =>
    intro k h
    obtain ⟨hm, hs⟩ := numberLine_decodes k t (h t (by simp))
    show decodePipe ((natRepr (k + 1) ++ ". " ++ t).data ::
      (numberFrom (k + 1) ts).map String.data) = t :: ts
    rw [numberLine_data,
      show ((natRepr (k + 1)).data ++ '.' :: ' ' :: t.data) ::
        (numberFrom (k + 1) ts).map String.data =
        [(natRepr (k + 1)).data ++ '.' :: ' ' :: t.data] ++
          (numberFrom (k + 1) ts).map String.data from rfl,
      decodePipe_append, ih (k + 1) (fun x hx => h x (by simp [hx]))]
    have hsingle : decodePipe [(natRepr (k + 1)).data ++ '.' :: ' ' :: t.data] = [t] := by
      rw [decodePipe]
      simp only [List.map_cons, List.map_nil, List.filter, hm, hs]
    rw [hsingle]
    simp

theorem numberLine_noNL (k : Nat) (t : String) (h : cleanTask t) :
    noNLChars (natRepr (k + 1) ++ ". " ++ t).data ∧
      (natRepr (k + 1) ++ ". " ++ t).data ≠ [] := by
  rw [numberLine_data]
  constructor
  · intro c hc
    rcases List.mem_append.mp hc with hd | hrest
    · exact digit_not_break (natRepr_digits _ c hd)
    · rcases List.mem_cons.mp hrest with rfl | hrest2
      · decide
      · rcases List.mem_cons.mp hrest2 with rfl | ht
        · decide
        · exact h.1 c ht
  · simp

theorem numberFrom_lines_ok :
    ∀ (tasks : List String) (k : Nat), (∀ t ∈ tasks, cleanTask t) →
      ∀ l ∈ numberFrom k tasks, noNLChars l.data ∧ l.data ≠ [] := by
  intro tasks
  induction tasks with
  | nil => intro k _ l hl; simp [numberFrom] at hl
  | cons t ts ih =>
    intro k h l hl
    rcases List.mem_cons.mp hl with rfl | hl2
    · exact numberLine_noNL k t (h t (by simp))
    · exact ih (k + 1) (fun x hx => h x (by simp [hx])) l hl2

theorem encodeBody_none (tasks : List String) :
    encodeBody tasks none =
      if tasks.isEmpty then "🎉 All tasks completed!"
      else "Remaining tasks:" ++ "\n" ++ joinNL (numberFrom 0 tasks) := rfl

theorem encodeBody_some_empty (tasks : List String) :
    encodeBody tasks (some "") = encodeBody tasks none := rfl

theorem encodeBody_some (tasks : List String) {r : String} (hre : r ≠ "") :
    encodeBody tasks (some r) =
      "✅ Removed: " ++ r ++ "\n\n" ++ encodeBody tasks none := by
  rw [encodeBody, encodeBody]
  simp [hre]

theorem splitlines_encodeBase (tasks : List String) (h : ∀ t ∈ tasks, cleanTask t) :
    splitlinesAux (encodeBody tasks none).data [] false =
      if tasks.isEmpty then ["🎉 All tasks completed!".data]
      else "Remaining tasks:".data :: (numberFrom 0 tasks).map String.data := by
  cases tasks with
  | nil =>
    rw [encodeBody_none]
    rw [splitlinesAux_noNL _ (by decide) []]
    simp
  | cons t ts =>
    rw [encodeBody_none]
    simp only [List.isEmpty_cons, if_neg (by simp : ¬(false = true))]
    have hdata : ("Remaining tasks:" ++ "\n" ++ joinNL (numberFrom 0 (t :: ts))).data =
        "Remaining tasks:".data ++ '\n' :: (joinNL (numberFrom 0 (t :: ts))).data := by
      rw [data_append, data_append]
      have hnl : ("\n" : String).data = ['\n'] := rfl
      rw [hnl]
      simp
    rw [hdata, splitlinesAux_append_nl _ (by decide)]
    rw [splitlines_joinNL (numberFrom 0 (t :: ts)) (by simp [numberFrom])
      (numberFrom_lines_ok (t :: ts) 0 h)]
    simp

theorem decodePipe_encodeBase (tasks : List String) (h : ∀ t ∈ tasks, cleanTask t) :
    decodePipe (splitlinesAux (encodeBody tasks none).data [] false) = tasks := by
  rw [splitlines_encodeBase tasks h]
  cases tasks with
  | nil =>
    simp only [List.isEmpty_nil, if_pos rfl]
    exact decodePipe_drop _ (by decide)
  | cons t ts =>
    simp only [List.isEmpty_cons, if_neg (by simp : ¬(false = true))]
    rw [show "Remaining tasks:".data :: (numberFrom 0 (t :: ts)).map String.data =
      ["Remaining tasks:".data] ++ (numberFrom 0 (t :: ts)).map String.data from rfl,
      decodePipe_append, decodePipe_drop _ (by decide),
      decodePipe_numberFrom (t :: ts) 0 h]
    simp

theorem encodeBody_isRecord (tasks : List String) (removed_task : Option String) :
    isTaskRecord (encodeBody tasks removed_task) = true := by
  have hbase : isTaskRecord (encodeBody tasks none) = true := by
    cases tasks with
    | nil => rw [encodeBody_none]; decide
    | cons t ts =>
      rw [encodeBody_none]
      simp only [List.isEmpty_cons, if_neg (by simp : ¬(false = true))]
      have hpre : pyStartsWith ("Remaining tasks:" ++ "\n" ++ joinNL (numberFrom 0 (t :: ts)))
          "Remaining tasks:" = true := by
        rw [pyStartsWith, data_append, data_append]
        have hnl : ("\n" : String).data = ['\n'] := rfl
        rw [hnl, List.append_assoc]
        exact isPrefixOf_append_self _ _
      rw [isTaskRecord, hpre]
      simp
  cases removed_task with
  | none => exact hbase
  | some r =>
    by_cases hre : r = ""
    · subst hre; rw [encodeBody_some_empty]; exact hbase
    · rw [encodeBody_some tasks hre]
      have hpre : pyStartsWith ("✅ Removed: " ++ r ++ "\n\n" ++ encodeBody tasks none)
          "✅ Removed:" = true := by
        rw [pyStartsWith, data_append, data_append, data_append]
        have hsp : ("✅ Removed: " : String).data = ("✅ Removed:" : String).data ++ [' '] := rfl
        rw [hsp]
        simp only [List.append_assoc]
        exact isPrefixOf_append_self _ _
      rw [isTaskRecord, hpre]
      simp

/-- The annotation line of a removal record is never decoded as a task. -/
theorem annLine_not_task (r : String) :
    matchesNumDot (stripChars (("✅ Removed: " : String).data ++ r.data)) = false := by
  have hdata : ("✅ Removed: " : String).data ++ r.data =
      '✅' :: ((" Removed: " : String).data ++ r.data) := by
    rw [show ("✅ Removed: " : String).data = '✅' :: (" Removed: " : String).data from by decide]
    simp
  rw [hdata]
  obtain ⟨mid, hmid⟩ := stripChars_head (c := '✅') (by decide)
    ((" Removed: " : String).data ++ r.data)
  rw [hmid]
  exact matchesNumDot_cons_nondigit (by decide) mid

theorem decode_encodeBody (tasks : List String) (removed_task : Option String)
    (h : ∀ t ∈ tasks, cleanTask t)
    (hr : ∀ r, removed_task = some r → noNLChars r.data) :
    decode (encodeBody tasks removed_task) = tasks := by
  rw [decode, if_pos (encodeBody_isRecord tasks removed_task), decodeLines_eq_pipe]
  cases removed_task with
  | none => exact decodePipe_encodeBase tasks h
  | some r =>
    by_cases hre : r = ""
    · subst hre
      rw [encodeBody_some_empty]
      exact decodePipe_encodeBase tasks h
    · rw [encodeBody_some tasks hre]
      have hdata : ("✅ Removed: " ++ r ++ "\n\n" ++ encodeBody tasks none).data =
          (("✅ Removed: " : String).data ++ r.data) ++
            '\n' :: ('\n' :: (encodeBody tasks none).data) := by
        rw [data_append, data_append, data_append]
        have hnn : ("\n\n" : String).data = ['\n', '\n'] := rfl
        rw [hnn]
        simp
      rw [splitlinesChars, hdata]
      have hann : noNLChars (("✅ Removed: " : String).data ++ r.data) := by
        intro c hc
        rcases List.mem_append.mp hc with hl | hr2
        · revert hl
          have : ∀ c ∈ ("✅ Removed: " : String).data, isLineBreak c = false := by decide
          exact this c
        · exact hr r rfl c hr2
      rw [splitlinesAux_append_nl _ hann, splitlinesAux_cons_nl]
      rw [show (List.reverse [] ++ (("✅ Removed: " : String).data ++ r.data)) ::
          List.reverse [] :: splitlinesAux (encodeBody tasks none).data [] false =
          [List.reverse [] ++ (("✅ Removed: " : String).data ++ r.data)] ++
            ([List.reverse []] ++ splitlinesAux (encodeBody tasks none).data [] false)
        from rfl]
      rw [decodePipe_append, decodePipe_append]
      rw [decodePipe_drop _ (by simpa using annLine_not_task r),
        decodePipe_drop _ (by decide), decodePipe_encodeBase tasks h]
      simp

theorem findRecord_none (msgs : List Msg) (h : ∀ m ∈ msgs, isTaskRecord m.text = false) :
    findRecord msgs = none := by
  induction msgs with
  | nil => rfl
  | cons m ms ih =>
    rw [findRecord]
    by_cases hm : m.text = ""
    · rw [if_pos hm]; exact ih (fun x hx => h x (by simp [hx]))
    · rw [if_neg hm, if_neg (by simp [h m (by simp)])]
      exact ih (fun x hx => h x (by simp [hx]))

/-! ## Claim theorems -/

/-- Claim C1, counterexample: the round-trip fails for arbitrary task
strings — a task containing a line break that itself looks like a numbered
line is split into two phantom tasks by the decoder. -/
theorem c1_counterexample :
    decode (encodeBody ["a\n2. b"] none) = ["a", "b"] ∧
      ["a", "b"] ≠ ["a\n2. b"] := by decide

/-- Claim C1 (amended): for every list of task strings in which each task
contains no `splitlines` line-boundary character and has no leading or
trailing whitespace (in CPython's full whitespace class), and any removal
annotation whose text contains no line boundary, decoding the encoded
record reproduces the same ordered list; in particular the empty-list
sentinel decodes to the empty list and the annotation line never appears
as a phantom task entry. -/
theorem c1_codec_roundtrip (tasks : List String) (removed_task : Option String)
    (h : ∀ t ∈ tasks, cleanTask t)
    (hr : ∀ r, removed_task = some r → noNLChars r.data) :
    decode (encodeBody tasks removed_task) = tasks :=
  decode_encodeBody tasks removed_task h hr

/-- Witness for C1: a concrete two-task list with a removal annotation
round-trips. -/
theorem c1_codec_roundtrip_witness :
    (∀ t ∈ (["alpha x", "beta"] : List String), cleanTask t) ∧
    decode (encodeBody ["alpha x", "beta"] (some "old task")) = ["alpha x", "beta"] :=
  ⟨by decide, c1_codec_roundtrip ["alpha x", "beta"] (some "old task") (by decide)
    (fun r hr => by rw [← Option.some.inj hr]; decide)⟩

/-- Claim C2 (code_bug): the spec requires that no exception cross the
request boundary, but the two notice posts in `remove_task` (lines 154 and
158) are made outside any `try/except`; with an empty task list and a
failing `chat_postMessage`, the handler raises instead of acknowledging. -/
theorem c2_exception_escapes :
    slack_events { openResult := some "D1", historyResult := some [], postFails := true }
      { challenge := none,
        event := some { type := some "message", subtype := none,
                        text := some "remove task 1", channel_type := some "im",
                        user := some "U03AA1ZBH5F" } } =
      Except.error SlackApiError.apiError := rfl

/-- Claim C3: a candidate identifier produced by the mention parser —
an individual mention's extracted identifier or a group-expanded member —
triggers an assignment iff it is in the static allow-list (every entry of
the configured allow-list starts with `"U"`, so the extra
`startswith("U")` check on individual mentions never excludes a listed
identifier). -/
theorem c3_allowlist_sole_gate (s : String) :
    (individualTriggers s = true ↔ s ∈ ALLOWED_USERS) ∧
    (groupMemberTriggers s = true ↔ s ∈ ALLOWED_USERS) := by
  constructor
  · constructor
    · intro h
      rw [individualTriggers, Bool.and_eq_true] at h
      exact of_decide_eq_true h.2
    · intro h
      have hs : s = "U03AA1ZBH5F" := by simpa [ALLOWED_USERS] using h
      subst hs; decide
  · rw [groupMemberTriggers]
    exact decide_eq_true_iff

/-- Claim C4: the decoder is total — on a body not recognized as a task
record it yields the empty list, and a history containing no recognized
record makes `get_latest_tasklist` return the channel with no prior record
and an empty task list. -/
theorem c4_decode_total (env : SlackEnv) (ch : String) (msgs : List Msg)
    (h1 : env.openResult = some ch) (h2 : env.historyResult = some msgs)
    (h3 : ∀ m ∈ msgs, isTaskRecord m.text = false) :
    (∀ text : String, isTaskRecord text = false → decode text = []) ∧
    get_latest_tasklist env = (some ch, none, []) := by
  constructor
  · intro text ht
    rw [decode, if_neg (by simp [ht])]
  · rw [get_latest_tasklist, h1, h2]
    show (match findRecord msgs with
          | some (ts, tasks) => (some ch, some ts, tasks)
          | none => (some ch, none, [])) = (some ch, none, ([] : List String))
    rw [findRecord_none msgs h3]

/-- Witness for C4: a concrete history of unrecognized chatter decodes to
no record. -/
theorem c4_decode_total_witness :
    get_latest_tasklist
      { openResult := some "D1",
        historyResult := some [⟨"1700000000.1", "hello world"⟩, ⟨"1700000000.2", "1. not a record"⟩] } =
      (some "D1", none, []) :=
  (c4_decode_total _ "D1" _ rfl rfl (by decide)).2

/-- Claim C5, counterexample: a bot-originated message (the `bot_id` marker
is present) that carries no subtype is not ignored — the router dispatches
it to removal logic, because the handler never inspects the bot marker. -/
theorem c5_counterexample :
    route { challenge := none,
            event := some { type := some "message", subtype := none,
                            text := some "remove task 1", channel_type := some "im",
                            user := none, bot_id := some "B0BOT" } } =
      RouterDecision.removal none 1 := by decide

/-- Claim C5 (amended): an inbound event (with no verification challenge)
is ignored iff its type is not a plain message post or it carries a truthy
subtype; there is no check on the event's bot origin, so a bot-authored
message delivered without a subtype is processed normally. -/
theorem c5_router_ignores (data : Payload) (ev : Event)
    (h1 : data.challenge = none) (h2 : data.event = some ev) :
    route data = RouterDecision.ignore ↔
      (ev.type ≠ some "message" ∨ pyTruthy ev.subtype = true) := by
  cases data with
  | mk ch evo =>
    cases h1
    cases h2
    show route ⟨none, some ev⟩ = RouterDecision.ignore ↔ _
    rw [route]
    simp only [Option.getD_some]
    by_cases ht : ev.type = some "message"
    · rw [if_neg (by simp [ht])]
      by_cases hsub : pyTruthy ev.subtype = true
      · rw [if_pos hsub]
        simp [hsub]
      · rw [if_neg hsub]
        constructor
        · intro hcontra
          exfalso
          by_cases hch : ev.channel_type = some "im"
          · rw [if_pos hch] at hcontra
            cases hp : parseRemoveCommand (eventText ev) with
            | none => rw [hp] at hcontra; exact RouterDecision.noConfusion hcontra
            | some n => rw [hp] at hcontra; exact RouterDecision.noConfusion hcontra
          · rw [if_neg hch] at hcontra
            exact RouterDecision.noConfusion hcontra
        · intro hcontra
          rcases hcontra with hcontra | hcontra
          · exact absurd ht hcontra
          · exact absurd hcontra hsub
    · rw [if_pos ht]
      simp [ht]

/-- Witness for C5: a non-message event is ignored. -/
theorem c5_router_ignores_witness :
    route { challenge := none, event := some { type := some "reaction_added" } } =
      RouterDecision.ignore :=
  (c5_router_ignores _ _ rfl rfl).mpr (by decide)

/-- Claim C6, counterexample: the spec-side grammar rejects
`"remove task 0"` (0 is not a positive integer), but the router dispatches
it to removal with position 0 — the code's `\d+` accepts any digit run and
only prefix-matches. -/
theorem c6_counterexample :
    specRemoveGrammar "remove task 0" = none ∧
    route { challenge := none,
            event := some { type := some "message", subtype := none,
                            text := some "remove task 0",
                            channel_type := some "im", user := some "U99" } } =
      RouterDecision.removal (some "U99") 0 := by decide

/-- Claim C6 (amended): a plain message event dispatches to removal with
parsed number `n` iff it occurs in a direct conversation and its trimmed
text begins with the case-insensitive literal `"remove task"` (Unicode
case folding) followed by whitespace (`\s`, CPython's full class) and a
run of Unicode decimal digits whose value is `n` (zero allowed, trailing
text ignored); every other plain message is handled as a mention
assignment. -/
theorem c6_removal_classification (data : Payload) (ev : Event) (s : Option String) (n : Nat)
    (h1 : data.challenge = none) (h2 : data.event = some ev) :
    (route data = RouterDecision.removal s n ↔
      (ev.type = some "message" ∧ pyTruthy ev.subtype = false ∧
        ev.channel_type = some "im" ∧
        parseRemoveCommand (eventText ev) = some n ∧ s = ev.user)) ∧
    (ev.type = some "message" → pyTruthy ev.subtype = false →
      (ev.channel_type ≠ some "im" ∨ parseRemoveCommand (eventText ev) = none) →
      route data = RouterDecision.mentions (eventText ev) ev.user) := by
  cases data with
  | mk ch evo =>
    cases h1
    cases h2
    have hroute : route ⟨none, some ev⟩ =
        (if ev.type ≠ some "message" then RouterDecision.ignore
         else if pyTruthy ev.subtype then RouterDecision.ignore
         else if ev.channel_type = some "im" then
           match parseRemoveCommand (eventText ev) with
           | some m => RouterDecision.removal ev.user m
           | none => RouterDecision.mentions (eventText ev) ev.user
         else RouterDecision.mentions (eventText ev) ev.user) := by
      rw [route]
      rfl
    constructor
    · rw [hroute]
      by_cases ht : ev.type = some "message"
      · rw [if_neg (by simp [ht])]
        by_cases hsub : pyTruthy ev.subtype = true
        · rw [if_pos hsub]
          constructor
          · intro hcontra; exact absurd hcontra (by simp)
          · rintro ⟨-, hfalse, -⟩; rw [hsub] at hfalse; cases hfalse
        · rw [if_neg hsub]
          by_cases hch : ev.channel_type = some "im"
          · rw [if_pos hch]
            cases hp : parseRemoveCommand (eventText ev) with
            | none =>
              constructor
              · intro hcontra; exact absurd hcontra (by simp)
              · rintro ⟨-, -, -, hsome, -⟩; cases hsome
            | some m =>
              constructor
              · intro heq
                have hmn : m = n ∧ ev.user = s := by
                  cases heq; exact ⟨rfl, rfl⟩
                exact ⟨ht, by simpa using hsub, hch, by rw [hmn.1], hmn.2.symm⟩
              · rintro ⟨-, -, -, hsome, hs⟩
                cases hsome
                rw [hs]
          · rw [if_neg hch]
            constructor
            · intro hcontra; exact absurd hcontra (by simp)
            · rintro ⟨-, -, him, -⟩; exact absurd him hch
      · rw [if_pos ht]
        constructor
        · intro hcontra; exact absurd hcontra (by simp)
        · rintro ⟨hmsg, -⟩; exact absurd hmsg ht
    · intro ht hsub hother
      rw [hroute, if_neg (by simp [ht]), if_neg (by simp [hsub])]
      rcases hother with hch | hp
      · rw [if_neg hch]
      · by_cases hch : ev.channel_type = some "im"
        · rw [if_pos hch, hp]
        · rw [if_neg hch]

/-- Witness for C6: a mixed-case command with trailing words dispatches to
removal with the parsed position. -/
theorem c6_removal_classification_witness :
    route { challenge := none,
            event := some { type := some "message",
                            text := some " Remove Task 12 now",
                            channel_type := some "im", user := some "U9" } } =
      RouterDecision.removal (some "U9") 12 :=
  ((c6_removal_classification _ _ (some "U9") 12 rfl rfl).1).mpr (by decide)

/-- Claim C7: removal boundary behavior — on a 3-task list, positions 0 and
4 leave the list unchanged and post an out-of-range notice; position 2
removes exactly the second task and the committed record renumbers the
survivors from 1; on an empty list a "nothing to remove" notice is posted
and no commit occurs. -/
theorem c7_removal_boundary (env : SlackEnv) (im t1 t2 t3 : String) (old_ts : Option String)
    (hpost : env.postFails = false) :
    remove_task_core env im old_ts [t1, t2, t3] 0 =
      Except.ok [Action.post im "Task 0 does not exist." true] ∧
    remove_task_core env im old_ts [t1, t2, t3] 4 =
      Except.ok [Action.post im "Task 4 does not exist." true] ∧
    remove_task_core env im old_ts [t1, t2, t3] 2 =
      Except.ok (post_tasklist env im [t1, t3] old_ts (some t2)) ∧
    numberFrom 0 [t1, t3] = ["1. " ++ t1, "2. " ++ t3] ∧
    remove_task_core env im old_ts [] 1 =
      Except.ok [Action.post im "No tasks to remove." true] := by
  refine ⟨?_, ?_, ?_, ?_, ?_⟩
  · rw [remove_task_core, if_neg (by simp), if_pos (by norm_num), if_neg (by simp [hpost])]
    rw [show ("Task " ++ natRepr 0 ++ " does not exist." : String) =
      "Task 0 does not exist." from by decide]
  · rw [remove_task_core, if_neg (by simp), if_pos (by norm_num), if_neg (by simp [hpost])]
    rw [show ("Task " ++ natRepr 4 ++ " does not exist." : String) =
      "Task 4 does not exist." from by decide]
  · rw [remove_task_core, if_neg (by simp), if_neg (by norm_num)]
    simp [List.getD, List.eraseIdx]
  · rw [show (numberFrom 0 [t1, t3] : List String) =
      [natRepr 1 ++ ". " ++ t1, natRepr 2 ++ ". " ++ t3] from rfl]
    rw [show (natRepr 1 : String) = "1" from by decide,
      show (natRepr 2 : String) = "2" from by decide]
    rw [show (("1" : String) ++ ". ") = "1. " from by decide,
      show (("2" : String) ++ ". ") = "2. " from by decide]
  · rw [remove_task_core, if_pos (by simp), if_neg (by simp [hpost])]

/-- Witness for C7: removing position 2 from a concrete 3-task list. -/
theorem c7_removal_boundary_witness :
    remove_task_core { postFails := false } "D1" (some "7.1") ["a", "b", "c"] 2 =
      Except.ok (post_tasklist { postFails := false } "D1" ["a", "c"] (some "7.1") (some "b")) :=
  (c7_removal_boundary _ "D1" "a" "b" "c" (some "7.1") rfl).2.2.1

/-- Claim C8: commit ordering is fail-closed — the old record is deleted
only when the post succeeded and the prior record id is non-null; a post
failure performs no delete; a delete failure after a successful post is
absorbed (the commit is neither undone nor retried). -/
theorem c8_commit_fail_closed (env : SlackEnv) (im : String) (tasks : List String)
    (old_ts removed_task : Option String) :
    (env.postFails = true →
      post_tasklist env im tasks old_ts removed_task =
        [Action.post im (encodeBody tasks removed_task) false]) ∧
    (∀ ch ts ok, Action.delete ch ts ok ∈ post_tasklist env im tasks old_ts removed_task →
      env.postFails = false ∧ old_ts ≠ none) ∧
    (env.postFails = false → ∀ ts, old_ts = some ts → ts ≠ "" →
      post_tasklist env im tasks old_ts removed_task =
        [Action.post im (encodeBody tasks removed_task) true,
         Action.delete im ts (!env.deleteFails)]) := by
  refine ⟨?_, ?_, ?_⟩
  · intro h
    rw [post_tasklist.eq_def]
    simp [h]
  · intro ch ts ok hmem
    cases hpf : env.postFails with
    | true =>
      rw [post_tasklist.eq_def] at hmem
      simp [hpf] at hmem
    | false =>
      refine ⟨rfl, ?_⟩
      cases old_ts with
      | none =>
        rw [post_tasklist.eq_def] at hmem
        simp [hpf] at hmem
      | some ts2 => simp
  · intro h ts hts hne
    subst hts
    rw [post_tasklist.eq_def]
    simp [h, hne]

/-- Witness for C8: a failing delete after a successful post leaves exactly
the two recorded calls, with no retry. -/
theorem c8_commit_fail_closed_witness :
    post_tasklist { deleteFails := true } "D1" ["t"] (some "5.5") none =
      [Action.post "D1" (encodeBody ["t"] none) true,
       Action.delete "D1" "5.5" false] :=
  (c8_commit_fail_closed { deleteFails := true } "D1" ["t"] (some "5.5") none).2.2
    rfl "5.5" rfl (by decide)

/-- Claim C9: truncation boundary — the stored task body is the original
text when its length is at most 200 characters, else the first 200
characters followed by the ellipsis marker; in particular a 250-character
body is truncated with an ellipsis and a 200-character body is stored
verbatim. -/
theorem c9_truncation (s : String) :
    (s.length = 250 → truncateVisible s = (⟨s.data.take 200⟩ : String) ++ "...") ∧
    (s.length = 200 → truncateVisible s = s) ∧
    (s.length ≤ 200 → truncateVisible s = s) ∧
    (200 < s.length → truncateVisible s = (⟨s.data.take 200⟩ : String) ++ "...") := by
  have hlen : s.length = s.data.length := rfl
  have hle : s.data.length ≤ 200 → truncateVisible s = s := by
    intro h
    rw [truncateVisible, if_neg (by omega)]
    apply strExt
    rw [data_append, List.take_of_length_le h]
    exact List.append_nil s.data
  have hgt : 200 < s.data.length →
      truncateVisible s = (⟨s.data.take 200⟩ : String) ++ "..." := by
    intro h
    rw [truncateVisible, if_pos h]
  exact ⟨fun h => hgt (by omega), fun h => hle (by omega),
    fun h => hle (by omega), fun h => hgt (by omega)⟩

set_option maxRecDepth 4000 in
/-- Witness for C9: a 250-character body is stored as its first 200
characters plus the ellipsis, and a 200-character body verbatim. -/
theorem c9_truncation_witness :
    truncateVisible ⟨List.replicate 250 'a'⟩ =
      (⟨List.replicate 200 'a'⟩ : String) ++ "..." ∧
    truncateVisible ⟨List.replicate 200 'b'⟩ = ⟨List.replicate 200 'b'⟩ := by
  constructor
  · have hlen : (String.mk (List.replicate 250 'a')).length = 250 := by decide
    rw [(c9_truncation ⟨List.replicate 250 'a'⟩).1 hlen]
    decide
  · have hlen : (String.mk (List.replicate 200 'b')).length = 200 := by decide
    exact (c9_truncation ⟨List.replicate 200 'b'⟩).2.1 hlen

/-- Claim C10: when the direct conversation opens but listing its history
fails, `get_latest_tasklist` degrades to "no record" — the channel with a
null prior id and an empty list — so a subsequent assignment commits a
record containing only the new task and attempts no delete, leaving any
genuine prior record live. -/
theorem c10_history_failure (env : SlackEnv) (ch full_text mention_token sender_id : String)
    (h1 : env.openResult = some ch) (h2 : env.historyResult = none) :
    get_latest_tasklist env = (some ch, none, []) ∧
    add_task env full_text mention_token sender_id =
      post_tasklist env ch [buildTask env full_text mention_token sender_id] none none ∧
    (∀ c ts ok, Action.delete c ts ok ∉ add_task env full_text mention_token sender_id) := by
  have hget : get_latest_tasklist env = (some ch, none, []) := by
    rw [get_latest_tasklist, h1, h2]
  refine ⟨hget, ?_, ?_⟩
  · rw [add_task, hget]
    rfl
  · intro c ts ok hmem
    rw [add_task, hget] at hmem
    revert hmem
    show Action.delete c ts ok ∈
      post_tasklist env ch ([] ++ [buildTask env full_text mention_token sender_id]) none none → False
    rw [post_tasklist.eq_def]
    cases hpf : env.postFails with
    | true => simp [hpf]
    | false => simp [hpf]

/-- Witness for C10: a concrete assignment under a failing history call
commits a single-task record and deletes nothing. -/
theorem c10_history_failure_witness :
    add_task
      { openResult := some "D9", historyResult := none,
        permalinkResult := some "http://lnk", userInfo := some { display_name := "Sam" } }
      "<@U03AA1ZBH5F> fix it" "<@U03AA1ZBH5F>" "S9" =
      post_tasklist
        { openResult := some "D9", historyResult := none,
          permalinkResult := some "http://lnk", userInfo := some { display_name := "Sam" } }
        "D9"
        [buildTask
          { openResult := some "D9", historyResult := none,
            permalinkResult := some "http://lnk", userInfo := some { display_name := "Sam" } }
          "<@U03AA1ZBH5F> fix it" "<@U03AA1ZBH5F>" "S9"]
        none none :=
  (c10_history_failure _ "D9" "<@U03AA1ZBH5F> fix it" "<@U03AA1ZBH5F>" "S9" rfl rfl).2.1

end App
